import Mathlib

/-!
# Verification of the facade rectification / annotation mapping engine

Shallow embedding, over exact rational arithmetic, of the geometric core of
the repository:

* `facade_rectification.py` — `FacadeRectifier.order_points`,
  `FacadeRectifier.fit_rectangle`, the `polygon_area` check inside
  `FacadeRectifier.rectify`, and `map_annotation_to_original`;
* `facade_rectification_v2.py` — `FacadeRectifier.order_points_simple`,
  `FacadeRectifier.infer_4th_corner`, `FacadeRectifier.extract_corners`,
  `FacadeRectifier.fit_rectangle`;
* `map_annotation.py` — `AnnotationMapper.map_point`,
  `AnnotationMapper.map_rectangle`, `AnnotationMapper.map_annotation_file`.

Floating point is modelled by exact rationals (`ℚ`); machine behaviour that
depends on float division by zero (which yields `inf`/`nan` and raises no
exception) is modelled by Lean's total rational division (`q / 0 = 0`), and
the relevant theorems only use the fact that a value, rather than an
exception, is produced.  The perspective transform produced by the external
`cv2.getPerspectiveTransform` primitive is modelled by its defining
property (the four-point projective correspondence).
-/

namespace FacadeInfer

/-- A 2D point, as in the `(x, y)` pairs used throughout the scripts. -/
abbrev Point := ℚ × ℚ

/-- An ordered quadrilateral: top-left, top-right, bottom-right, bottom-left,
the fixed order returned by `order_points` / `order_points_simple`. -/
structure Quad where
  tl : Point
  tr : Point
  br : Point
  bl : Point
deriving DecidableEq

/-- A homogeneous 3-vector, as used for the column vector `[[x],[y],[1]]`
in `AnnotationMapper.map_point` (map_annotation.py, line 46). -/
structure Vec3 where
  x : ℚ
  y : ℚ
  z : ℚ
deriving DecidableEq

/-- A 3×3 matrix, the representation of the perspective transform matrices
`M` / `M_inv` stored in the transform record. -/
structure Mat3 where
  m00 : ℚ
  m01 : ℚ
  m02 : ℚ
  m10 : ℚ
  m11 : ℚ
  m12 : ℚ
  m20 : ℚ
  m21 : ℚ
  m22 : ℚ
deriving DecidableEq

namespace Vec3

instance : Add Vec3 := ⟨fun u v => ⟨u.x + v.x, u.y + v.y, u.z + v.z⟩⟩

instance : Zero Vec3 := ⟨⟨0, 0, 0⟩⟩

instance : SMul ℚ Vec3 := ⟨fun c v => ⟨c * v.x, c * v.y, c * v.z⟩⟩

end Vec3

namespace Mat3

/-- Matrix-vector product: the `M_inv @ point` of map_annotation.py, line 47. -/
def mulVec (M : Mat3) (v : Vec3) : Vec3 :=
  ⟨M.m00 * v.x + M.m01 * v.y + M.m02 * v.z,
   M.m10 * v.x + M.m11 * v.y + M.m12 * v.z,
   M.m20 * v.x + M.m21 * v.y + M.m22 * v.z⟩

/-- Matrix product. -/
def matMul (A B : Mat3) : Mat3 :=
  ⟨A.m00 * B.m00 + A.m01 * B.m10 + A.m02 * B.m20,
   A.m00 * B.m01 + A.m01 * B.m11 + A.m02 * B.m21,
   A.m00 * B.m02 + A.m01 * B.m12 + A.m02 * B.m22,
   A.m10 * B.m00 + A.m11 * B.m10 + A.m12 * B.m20,
   A.m10 * B.m01 + A.m11 * B.m11 + A.m12 * B.m21,
   A.m10 * B.m02 + A.m11 * B.m12 + A.m12 * B.m22,
   A.m20 * B.m00 + A.m21 * B.m10 + A.m22 * B.m20,
   A.m20 * B.m01 + A.m21 * B.m11 + A.m22 * B.m21,
   A.m20 * B.m02 + A.m21 * B.m12 + A.m22 * B.m22⟩

instance : Mul Mat3 := ⟨matMul⟩

instance : One Mat3 := ⟨⟨1, 0, 0, 0, 1, 0, 0, 0, 1⟩⟩

instance : SMul ℚ Mat3 :=
  ⟨fun c M => ⟨c * M.m00, c * M.m01, c * M.m02,
               c * M.m10, c * M.m11, c * M.m12,
               c * M.m20, c * M.m21, c * M.m22⟩⟩

/-- Determinant of a 3×3 matrix. -/
def det (M : Mat3) : ℚ :=
  M.m00 * (M.m11 * M.m22 - M.m12 * M.m21)
    - M.m01 * (M.m10 * M.m22 - M.m12 * M.m20)
    + M.m02 * (M.m10 * M.m21 - M.m11 * M.m20)

/-- Adjugate (transposed cofactor matrix) of a 3×3 matrix. -/
def adj (M : Mat3) : Mat3 :=
  ⟨M.m11 * M.m22 - M.m12 * M.m21,
   M.m02 * M.m21 - M.m01 * M.m22,
   M.m01 * M.m12 - M.m02 * M.m11,
   M.m12 * M.m20 - M.m10 * M.m22,
   M.m00 * M.m22 - M.m02 * M.m20,
   M.m02 * M.m10 - M.m00 * M.m12,
   M.m10 * M.m21 - M.m11 * M.m20,
   M.m01 * M.m20 - M.m00 * M.m21,
   M.m00 * M.m11 - M.m01 * M.m10⟩

/-- The matrix whose columns are the three given vectors. -/
def colMat (u v w : Vec3) : Mat3 :=
  ⟨u.x, v.x, w.x, u.y, v.y, w.y, u.z, v.z, w.z⟩

end Mat3

/-- Determinant of the matrix with the three given homogeneous columns; it is
nonzero exactly when the three planar points are not collinear. -/
def det3 (u v w : Vec3) : ℚ := Mat3.det (Mat3.colMat u v w)

/-- The homogeneous lift `(x, y) ↦ (x, y, 1)` used by `map_point`. -/
def hvec (p : Point) : Vec3 := ⟨p.1, p.2, 1⟩

/-! ## `AnnotationMapper.map_point` (map_annotation.py, lines 36-49) and
`map_annotation_to_original` (facade_rectification.py, lines 483-506)

Both functions build the homogeneous column `[[x],[y],[1]]`, left-multiply it
by the matrix, and divide the first two components by the third,
unconditionally: neither contains any test of the homogeneous scale.  In the
rational model, division by a zero scale yields `0` (Lean's total division)
where the float code yields `inf`/`nan`; in both cases a value, not an
exception, is produced. -/

/-- The homogeneous scale component `transformed[2, 0]` produced when mapping
`(x, y)` with matrix `M`. -/
def homogW (M : Mat3) (x y : ℚ) : ℚ := (M.mulVec ⟨x, y, 1⟩).z

/-- `AnnotationMapper.map_point`: multiply the homogeneous point by `M` and
divide by the scale component, with no singularity check. -/
def mapPoint (M : Mat3) (x y : ℚ) : Point :=
  let t := M.mulVec ⟨x, y, 1⟩
  (t.x / t.z, t.y / t.z)

/-- The result dictionary of `AnnotationMapper.map_rectangle`
(map_annotation.py, lines 76-80): the four mapped corner points in
TL/TR/BR/BL order and the original `[x1, y1, x2, y2]` rectangle. -/
structure MappedQuadrilateral where
  points : List Point
  original : List ℚ
deriving DecidableEq

/-- `AnnotationMapper.map_rectangle` (map_annotation.py, lines 51-80):
normalize the two given opposite corners to TL/TR/BR/BL by independent
per-axis `min`/`max`, map each corner through `map_point`, and return the
mapped points in TL/TR/BR/BL order plus the original rectangle. -/
def mapRectangle (M : Mat3) (x1 y1 x2 y2 : ℚ) : MappedQuadrilateral :=
  let tl : Point := (min x1 x2, min y1 y2)
  let tr : Point := (max x1 x2, min y1 y2)
  let br : Point := (max x1 x2, max y1 y2)
  let bl : Point := (min x1 x2, max y1 y2)
  { points := [mapPoint M tl.1 tl.2, mapPoint M tr.1 tr.2,
               mapPoint M br.1 br.2, mapPoint M bl.1 bl.2],
    original := [x1, y1, x2, y2] }

/-! ## Quadrant classification and corner ordering

`FacadeRectifier.order_points` (facade_rectification.py, lines 172-211) and
`FacadeRectifier.order_points_simple` (facade_rectification_v2.py, lines
83-113) share the same shape: compute the centroid as the mean of the points,
classify each point by an if/elif chain against the centroid (later points
silently overwrite an already-assigned slot), and finally build the
`[top_left, top_right, bottom_right, bottom_left]` array.  When a slot was
never assigned it still holds `None` and the `np.array(..., dtype=float32)`
conversion raises a `TypeError`; this crash is modelled by the
`missingCorner` error.  Neither routine contains any same-quadrant check. -/

/-- The four corner slots TL/TR/BR/BL. -/
inductive Corner where
  | tl
  | tr
  | br
  | bl
deriving DecidableEq, Fintype

/-- Error vocabulary for the corner-resolution routines.
`ambiguousQuadrant` and `degenerateQuadrilateral` are the errors named by the
specification (`AmbiguousQuadrantError`, `DegenerateQuadrilateralError`); the
source never raises either of them.  `missingCorner` models the `TypeError`
raised by `np.array` when a corner slot is still `None`, and `tooFewPoints`
models the `ValueError` raised in `extract_corners`
(facade_rectification_v2.py, line 183) carrying the surviving point count. -/
inductive GeomError where
  | ambiguousQuadrant
  | missingCorner
  | degenerateQuadrilateral (area : ℚ)
  | tooFewPoints (n : ℕ)
deriving DecidableEq

/-- Mean of the x coordinates (`np.mean(pts[:, 0])`). -/
def centroidX (pts : List Point) : ℚ := (pts.map Prod.fst).sum / pts.length

/-- Mean of the y coordinates (`np.mean(pts[:, 1])`). -/
def centroidY (pts : List Point) : ℚ := (pts.map Prod.snd).sum / pts.length

/-- The if/elif classification chain of `order_points`
(facade_rectification.py, lines 200-208): `x < cx and y < cy` is TL,
`x >= cx and y < cy` is TR, `x >= cx and y >= cy` is BR, and the remaining
case (`x < cx and y >= cy`) is BL. -/
def classifyOrderPoints (cx cy : ℚ) (p : Point) : Corner :=
  if p.1 < cx ∧ p.2 < cy then .tl
  else if cx ≤ p.1 ∧ p.2 < cy then .tr
  else if cx ≤ p.1 ∧ cy ≤ p.2 then .br
  else .bl

/-- The if/elif classification chain of `order_points_simple`
(facade_rectification_v2.py, lines 99-106): `x <= cx and y <= cy` is TL,
`x >= cx and y <= cy` is TR, `x >= cx and y >= cy` is BR, else BL; the first
matching branch wins. -/
def classifyOrderPointsSimple (cx cy : ℚ) (p : Point) : Corner :=
  if p.1 ≤ cx ∧ p.2 ≤ cy then .tl
  else if cx ≤ p.1 ∧ p.2 ≤ cy then .tr
  else if cx ≤ p.1 ∧ cy ≤ p.2 then .br
  else .bl

/-- The four assignment slots during the classification loop (`top_left = None`
etc. in v1, the `quadrants` dict in v2). -/
structure CornerSlots where
  tl : Option Point
  tr : Option Point
  br : Option Point
  bl : Option Point
deriving DecidableEq

/-- One loop iteration: store the point in its classified slot, silently
overwriting any previous occupant, exactly as the source assignments do. -/
def assignSlot (s : CornerSlots) (c : Corner) (p : Point) : CornerSlots :=
  match c with
  | .tl => { s with tl := some p }
  | .tr => { s with tr := some p }
  | .br => { s with br := some p }
  | .bl => { s with bl := some p }

/-- The slots after classifying every point of `pts` against centroid
`(cx, cy)` with the given classification chain. -/
def runSlots (classify : ℚ → ℚ → Point → Corner) (pts : List Point) :
    CornerSlots :=
  let cx := centroidX pts
  let cy := centroidY pts
  pts.foldl (fun s p => assignSlot s (classify cx cy p) p) ⟨none, none, none, none⟩

/-- Read the slot of a given corner. -/
def slotGet (s : CornerSlots) : Corner → Option Point
  | .tl => s.tl
  | .tr => s.tr
  | .br => s.br
  | .bl => s.bl

/-- The four points of a four-point annotation, indexed for quantification
over pairs of indices. -/
def pointAt (p1 p2 p3 p4 : Point) : Fin 4 → Point
  | 0 => p1
  | 1 => p2
  | 2 => p3
  | 3 => p4

/-- Common body of `order_points` / `order_points_simple`: run the
classification loop, then build the TL/TR/BR/BL array; a slot still holding
`None` makes the `np.array(..., dtype=np.float32)` conversion raise, modelled
as `missingCorner`. -/
def buildQuad (classify : ℚ → ℚ → Point → Corner) (pts : List Point) :
    Except GeomError Quad :=
  let s := runSlots classify pts
  match s.tl, s.tr, s.br, s.bl with
  | some a, some b, some c, some d => .ok ⟨a, b, c, d⟩
  | _, _, _, _ => .error .missingCorner

/-- `FacadeRectifier.order_points` (facade_rectification.py, lines 172-211). -/
def orderPoints (pts : List Point) : Except GeomError Quad :=
  buildQuad classifyOrderPoints pts

/-- `FacadeRectifier.order_points_simple`
(facade_rectification_v2.py, lines 83-113). -/
def orderPointsSimple (pts : List Point) : Except GeomError Quad :=
  buildQuad classifyOrderPointsSimple pts

/-! ## The area check inside `FacadeRectifier.rectify`
(facade_rectification.py, lines 376-393) -/

/-- The local `polygon_area` helper (lines 379-382) applied to the ordered
source quadrilateral: `0.5 * |dot(x, roll(y, 1)) - dot(y, roll(x, 1))|`,
the absolute shoelace area. -/
def polygonArea (q : Quad) : ℚ :=
  let x0 := q.tl.1; let y0 := q.tl.2
  let x1 := q.tr.1; let y1 := q.tr.2
  let x2 := q.br.1; let y2 := q.br.2
  let x3 := q.bl.1; let y3 := q.bl.2
  |(x0 * y3 + x1 * y0 + x2 * y1 + x3 * y2)
    - (y0 * x3 + y1 * x0 + y2 * x1 + y3 * x2)| / 2

/-- What `rectify` does with the computed area (lines 384-393): record it,
print a warning when `area < 1000`, and in every case continue to the
`cv2.getPerspectiveTransform` calls with the same quadrilateral. -/
structure RectifyAreaOutcome where
  quad : Quad
  area : ℚ
  lowAreaWarned : Bool
deriving DecidableEq

/-- The area gate of `rectify`: compute `polygon_area`, warn if it is below
1000, and proceed unconditionally.  The source contains no raise on this
path, so the `Except` never takes its error branch. -/
def rectifyAreaCheck (q : Quad) : Except GeomError RectifyAreaOutcome :=
  let area := polygonArea q
  .ok ⟨q, area, decide (area < 1000)⟩

/-! ## `FacadeRectifier.infer_4th_corner`
(facade_rectification_v2.py, lines 273-303) -/

/-- Stable ascending sort of three points by their y coordinate
(`pts[np.argsort(pts[:, 1])]`; ties in y are not exercised by any claim). -/
def sortByY3 (a b c : Point) : Point × Point × Point :=
  if a.2 ≤ b.2 then
    if b.2 ≤ c.2 then (a, b, c)
    else if a.2 ≤ c.2 then (a, c, b)
    else (c, a, b)
  else
    if a.2 ≤ c.2 then (b, a, c)
    else if b.2 ≤ c.2 then (b, c, a)
    else (c, b, a)

/-- The inferred fourth point and the corner list handed to
`order_points_simple` by `infer_4th_corner`: with `top`, `middle`, `bottom`
the three points sorted by ascending y, if `top.x <= middle.x` the new point
is `(top.x + (bottom.x - middle.x), top.y)` and the list is
`[top, inferred, bottom, middle]`, otherwise the new point is
`(top.x - (middle.x - bottom.x), top.y)` and the list is
`[inferred, top, middle, bottom]`. -/
def infer4thData (a b c : Point) : Point × List Point :=
  let s := sortByY3 a b c
  let top := s.1
  let middle := s.2.1
  let bottom := s.2.2
  if top.1 ≤ middle.1 then
    let inferred : Point := (top.1 + (bottom.1 - middle.1), top.2)
    (inferred, [top, inferred, bottom, middle])
  else
    let inferred : Point := (top.1 - (middle.1 - bottom.1), top.2)
    (inferred, [inferred, top, middle, bottom])

/-- The fourth point computed by `infer_4th_corner` (lines 287-301). -/
def inferFourthPoint (a b c : Point) : Point := (infer4thData a b c).1

/-- `FacadeRectifier.infer_4th_corner`: build the four-corner list and pass
it to `order_points_simple` (line 303). -/
def infer4thCorner (a b c : Point) : Except GeomError Quad :=
  orderPointsSimple (infer4thData a b c).2

/-! ## `FacadeRectifier.extract_corners`
(facade_rectification_v2.py, lines 159-197) -/

/-- Squared Euclidean distance between two points. -/
def squaredDist (p q : Point) : ℚ := (p.1 - q.1) ^ 2 + (p.2 - q.2) ^ 2

/-- The de-duplication loop (lines 169-180): keep a point unless some
already-kept point is within Euclidean distance 5 of it
(`np.linalg.norm(pt - existing) < 5`, equivalently squared distance < 25). -/
def dedup5 (pts : List Point) : List Point :=
  pts.foldl
    (fun acc p =>
      if acc.any (fun e => decide (squaredDist p e < 25)) then acc
      else acc ++ [p])
    []

/-- `FacadeRectifier.extract_corners`: de-duplicate, raise `ValueError`
(modelled as `tooFewPoints` carrying the surviving count) when fewer than 3
distinct points remain, use `order_points_simple` for exactly 4, the 3-point
inference for exactly 3, and otherwise dispatch to `select_best_corners`.
The hull-based `select_best_corners` (lines 199-271) rests on
`scipy.spatial.ConvexHull` and is irrelevant to every claim, so it is taken
as a parameter and the claims about this function quantify over it. -/
def extractCorners (selectBest : List Point → Except GeomError Quad)
    (pts : List Point) : Except GeomError Quad :=
  let u := dedup5 pts
  if u.length < 3 then .error (.tooFewPoints u.length)
  else match u with
    | [a, b, c, d] => orderPointsSimple [a, b, c, d]
    | [a, b, c] => infer4thCorner a b c
    | _ => selectBest u

/-! ## `FacadeRectifier.fit_rectangle`
(facade_rectification.py, lines 153-170 and facade_rectification_v2.py,
lines 138-157; the width/height/destination computation is identical) -/

/-- Squared length of the top edge `src_points[1] - src_points[0]`
(TL to TR). -/
def topWidthSq (q : Quad) : ℚ :=
  (q.tr.1 - q.tl.1) ^ 2 + (q.tr.2 - q.tl.2) ^ 2

/-- Squared length of the bottom edge `src_points[3] - src_points[2]`
(BL to BR). -/
def bottomWidthSq (q : Quad) : ℚ :=
  (q.bl.1 - q.br.1) ^ 2 + (q.bl.2 - q.br.2) ^ 2

/-- `target_width = int(max(top_width, bottom_width))`: Python `int` truncates
the non-negative float toward zero, and truncation commutes with the monotone
square root, so the result is `Nat.sqrt` of the floor of the larger squared
edge length.  The claim theorem identifies this with
`⌊Real.sqrt (max topWidthSq bottomWidthSq)⌋`. -/
def targetWidth (q : Quad) : ℕ :=
  Nat.sqrt (Int.toNat ⌊max (topWidthSq q) (bottomWidthSq q)⌋)

/-- `fit_rectangle` after corner resolution: the destination rectangle
`[[0, 0], [W, 0], [W, H], [0, H]]` (TL, TR, BR, BL), returned together with
`(target_width, target_height)`; the height is the caller's image height,
passed through unchanged. -/
def fitRectangle (q : Quad) (height : ℕ) : Quad × ℕ × ℕ :=
  let w := targetWidth q
  (⟨(0, 0), ((w : ℚ), 0), ((w : ℚ), (height : ℚ)), (0, (height : ℚ))⟩,
   w, height)

/-! ## `AnnotationMapper.map_annotation_file`
(map_annotation.py, lines 132-208)

The `"point"` branch (lines 158-163) is not valid Python: the dictionary
literal contains the bare elements `'x', self.map_point(ann['x'], ann['y'])`
where a `key: value` pair is required, so the module fails to import with a
`SyntaxError` (confirmed: `':' expected after dictionary key`, line 161).
The batch is modelled at statement granularity with that branch as a fault;
the `"circle"` branch is omitted from the model because it samples the
circle with `np.cos`/`np.sin` and no claim mentions it. -/

/-- An input annotation entry, tagged as in the JSON `"type"` field. -/
inductive AnnotationShape where
  | point (x y : ℚ)
  | rectangle (x1 y1 x2 y2 : ℚ)
  | polygon (pts : List Point)
  | other (tag : String)
deriving DecidableEq

/-- A mapped annotation entry (the `mapped_shape` payload). -/
inductive MappedShape where
  | rectangle (q : MappedQuadrilateral)
  | polygon (pts : List Point)
deriving DecidableEq

/-- The fault raised by the `"point"` branch: its dictionary literal is
syntactically malformed, so no point annotation can ever be mapped. -/
inductive BatchError where
  | pointBranchMalformed
deriving DecidableEq

/-- Mapping of one annotation entry: `"point"` faults (malformed source),
`"rectangle"` and `"polygon"` map through `map_rectangle` / `map_polygon`,
and an unrecognized tag prints a warning and is skipped (`none`). -/
def mapAnnotationEntry (M : Mat3) : AnnotationShape →
    Except BatchError (Option MappedShape)
  | .point _ _ => .error .pointBranchMalformed
  | .rectangle x1 y1 x2 y2 => .ok (some (.rectangle (mapRectangle M x1 y1 x2 y2)))
  | .polygon pts => .ok (some (.polygon (pts.map fun p => mapPoint M p.1 p.2)))
  | .other _ => .ok none

/-- The batch loop of `map_annotation_file`: process entries in order,
collect the mapped shapes, count the skipped entries, and abort on the first
fault. -/
def mapAnnotationFile (M : Mat3) :
    List AnnotationShape → Except BatchError (List MappedShape × ℕ)
  | [] => .ok ([], 0)
  | a :: rest =>
    match mapAnnotationEntry M a with
    | .error e => .error e
    | .ok none =>
      match mapAnnotationFile M rest with
      | .error e => .error e
      | .ok (ms, k) => .ok (ms, k + 1)
    | .ok (some m) =>
      match mapAnnotationFile M rest with
      | .error e => .error e
      | .ok (ms, k) => .ok (m :: ms, k)

/-! ## The perspective transform pair
(`cv2.getPerspectiveTransform(src_points, dst_points)` and
`cv2.getPerspectiveTransform(dst_points, src_points)`,
facade_rectification.py lines 391-393)

`cv2.getPerspectiveTransform` is an external primitive; it is modelled by
its defining property: the returned 3×3 matrix maps each of the four source
corners to the corresponding destination corner in homogeneous coordinates
with a nonzero scale. -/

/-- `M` sends `s` to `d` projectively: the homogeneous image of `s` has
nonzero scale `w` and equals `(w * d.x, w * d.y, w)`. -/
def projMaps (M : Mat3) (s d : Point) : Prop :=
  (M.mulVec (hvec s)).z ≠ 0 ∧
    (M.mulVec (hvec s)).x = (M.mulVec (hvec s)).z * d.1 ∧
    (M.mulVec (hvec s)).y = (M.mulVec (hvec s)).z * d.2

instance (M : Mat3) (s d : Point) : Decidable (projMaps M s d) := by
  unfold projMaps; infer_instance

/-- `M` is the perspective transform of the four-point correspondence
`src → dst`, the defining property of `cv2.getPerspectiveTransform`. -/
def isPerspectiveTransform (M : Mat3) (src dst : Quad) : Prop :=
  projMaps M src.tl dst.tl ∧ projMaps M src.tr dst.tr ∧
    projMaps M src.br dst.br ∧ projMaps M src.bl dst.bl

instance (M : Mat3) (src dst : Quad) :
    Decidable (isPerspectiveTransform M src dst) := by
  unfold isPerspectiveTransform; infer_instance

/-- No three of the four corners are collinear: every triple of homogeneous
lifts has nonzero determinant.  This holds for every quadrilateral a
rectification run can hand to `cv2.getPerspectiveTransform`, since a
correspondence with three collinear corners has no invertible homography. -/
def GeneralPosition (q : Quad) : Prop :=
  det3 (hvec q.tl) (hvec q.tr) (hvec q.br) ≠ 0 ∧
    det3 (hvec q.bl) (hvec q.tr) (hvec q.br) ≠ 0 ∧
    det3 (hvec q.tl) (hvec q.bl) (hvec q.br) ≠ 0 ∧
    det3 (hvec q.tl) (hvec q.tr) (hvec q.bl) ≠ 0

instance (q : Quad) : Decidable (GeneralPosition q) := by
  unfold GeneralPosition; infer_instance

/-! ## Component lemmas for the vector and matrix operations -/

@[simp]
theorem Vec3.add_x (u v : Vec3) : (u + v).x = u.x + v.x := rfl

@[simp]
theorem Vec3.add_y (u v : Vec3) : (u + v).y = u.y + v.y := rfl

@[simp]
theorem Vec3.add_z (u v : Vec3) : (u + v).z = u.z + v.z := rfl

@[simp]
theorem Vec3.smul_x (c : ℚ) (v : Vec3) : (c • v).x = c * v.x := rfl

@[simp]
theorem Vec3.smul_y (c : ℚ) (v : Vec3) : (c • v).y = c * v.y := rfl

@[simp]
theorem Vec3.smul_z (c : ℚ) (v : Vec3) : (c • v).z = c * v.z := rfl

@[simp]
theorem Vec3.zero_x : (0 : Vec3).x = 0 := rfl

@[simp]
theorem Vec3.zero_y : (0 : Vec3).y = 0 := rfl

@[simp]
theorem Vec3.zero_z : (0 : Vec3).z = 0 := rfl

theorem Vec3.ext3 {u v : Vec3} (hx : u.x = v.x) (hy : u.y = v.y)
    (hz : u.z = v.z) : u = v := by
  cases u; cases v; simp_all

theorem Mat3.ext9 {A B : Mat3} (h00 : A.m00 = B.m00) (h01 : A.m01 = B.m01)
    (h02 : A.m02 = B.m02) (h10 : A.m10 = B.m10) (h11 : A.m11 = B.m11)
    (h12 : A.m12 = B.m12) (h20 : A.m20 = B.m20) (h21 : A.m21 = B.m21)
    (h22 : A.m22 = B.m22) : A = B := by
  cases A; cases B; simp_all

theorem Mat3.mul_def (A B : Mat3) : A * B = Mat3.matMul A B := rfl

@[simp]
theorem Mat3.one_m00 : (1 : Mat3).m00 = 1 := rfl

@[simp]
theorem Mat3.one_m01 : (1 : Mat3).m01 = 0 := rfl

@[simp]
theorem Mat3.one_m02 : (1 : Mat3).m02 = 0 := rfl

@[simp]
theorem Mat3.one_m10 : (1 : Mat3).m10 = 0 := rfl

@[simp]
theorem Mat3.one_m11 : (1 : Mat3).m11 = 1 := rfl

@[simp]
theorem Mat3.one_m12 : (1 : Mat3).m12 = 0 := rfl

@[simp]
theorem Mat3.one_m20 : (1 : Mat3).m20 = 0 := rfl

@[simp]
theorem Mat3.one_m21 : (1 : Mat3).m21 = 0 := rfl

@[simp]
theorem Mat3.one_m22 : (1 : Mat3).m22 = 1 := rfl

@[simp]
theorem Mat3.smul_m00 (c : ℚ) (M : Mat3) : (c • M).m00 = c * M.m00 := rfl

@[simp]
theorem Mat3.smul_m01 (c : ℚ) (M : Mat3) : (c • M).m01 = c * M.m01 := rfl

@[simp]
theorem Mat3.smul_m02 (c : ℚ) (M : Mat3) : (c • M).m02 = c * M.m02 := rfl

@[simp]
theorem Mat3.smul_m10 (c : ℚ) (M : Mat3) : (c • M).m10 = c * M.m10 := rfl

@[simp]
theorem Mat3.smul_m11 (c : ℚ) (M : Mat3) : (c • M).m11 = c * M.m11 := rfl

@[simp]
theorem Mat3.smul_m12 (c : ℚ) (M : Mat3) : (c • M).m12 = c * M.m12 := rfl

@[simp]
theorem Mat3.smul_m20 (c : ℚ) (M : Mat3) : (c • M).m20 = c * M.m20 := rfl

@[simp]
theorem Mat3.smul_m21 (c : ℚ) (M : Mat3) : (c • M).m21 = c * M.m21 := rfl

@[simp]
theorem Mat3.smul_m22 (c : ℚ) (M : Mat3) : (c • M).m22 = c * M.m22 := rfl

/-! ## Linear algebra facts used for the transform round-trip claim -/

theorem mulVec_matMul (A B : Mat3) (v : Vec3) :
    (A * B).mulVec v = A.mulVec (B.mulVec v) := by
  cases A; cases B; cases v
  refine Vec3.ext3 ?_ ?_ ?_ <;>
    simp only [Mat3.mul_def, Mat3.matMul, Mat3.mulVec] <;> ring

theorem mulVec_smul (A : Mat3) (c : ℚ) (v : Vec3) :
    A.mulVec (c • v) = c • A.mulVec v := by
  cases A; cases v
  refine Vec3.ext3 ?_ ?_ ?_ <;>
    simp only [Mat3.mulVec, Vec3.smul_x, Vec3.smul_y, Vec3.smul_z] <;> ring

theorem mulVec_add (A : Mat3) (u v : Vec3) :
    A.mulVec (u + v) = A.mulVec u + A.mulVec v := by
  cases A; cases u; cases v
  refine Vec3.ext3 ?_ ?_ ?_ <;>
    simp only [Mat3.mulVec, Vec3.add_x, Vec3.add_y, Vec3.add_z] <;> ring

theorem mulVec_zero (A : Mat3) : A.mulVec 0 = 0 := by
  cases A
  refine Vec3.ext3 ?_ ?_ ?_ <;>
    simp [Mat3.mulVec]

theorem one_mulVec (v : Vec3) : (1 : Mat3).mulVec v = v := by
  cases v
  refine Vec3.ext3 ?_ ?_ ?_ <;> simp [Mat3.mulVec]

theorem smul_one_mulVec (c : ℚ) (v : Vec3) :
    ((c • (1 : Mat3))).mulVec v = c • v := by
  cases v
  refine Vec3.ext3 ?_ ?_ ?_ <;> simp [Mat3.mulVec]

theorem vec_smul_smul (a b : ℚ) (v : Vec3) : a • (b • v) = (a * b) • v := by
  cases v
  refine Vec3.ext3 ?_ ?_ ?_ <;> simp <;> ring

theorem vec_smul_zero (c : ℚ) : c • (0 : Vec3) = 0 := by
  refine Vec3.ext3 ?_ ?_ ?_ <;> simp

theorem vec_smul_cancel {c : ℚ} (hc : c ≠ 0) {u v : Vec3}
    (h : c • u = c • v) : u = v := by
  have hx := congrArg Vec3.x h
  have hy := congrArg Vec3.y h
  have hz := congrArg Vec3.z h
  simp only [Vec3.smul_x, Vec3.smul_y, Vec3.smul_z] at hx hy hz
  exact Vec3.ext3 (mul_left_cancel₀ hc hx) (mul_left_cancel₀ hc hy)
    (mul_left_cancel₀ hc hz)

theorem mat_smul_cancel {c : ℚ} (hc : c ≠ 0) {A B : Mat3}
    (h : c • A = c • B) : A = B := by
  have h1 := congrArg Mat3.m00 h
  have h2 := congrArg Mat3.m01 h
  have h3 := congrArg Mat3.m02 h
  have h4 := congrArg Mat3.m10 h
  have h5 := congrArg Mat3.m11 h
  have h6 := congrArg Mat3.m12 h
  have h7 := congrArg Mat3.m20 h
  have h8 := congrArg Mat3.m21 h
  have h9 := congrArg Mat3.m22 h
  simp only [Mat3.smul_m00, Mat3.smul_m01, Mat3.smul_m02, Mat3.smul_m10,
    Mat3.smul_m11, Mat3.smul_m12, Mat3.smul_m20, Mat3.smul_m21,
    Mat3.smul_m22] at h1 h2 h3 h4 h5 h6 h7 h8 h9
  exact Mat3.ext9 (mul_left_cancel₀ hc h1) (mul_left_cancel₀ hc h2)
    (mul_left_cancel₀ hc h3) (mul_left_cancel₀ hc h4) (mul_left_cancel₀ hc h5)
    (mul_left_cancel₀ hc h6) (mul_left_cancel₀ hc h7) (mul_left_cancel₀ hc h8)
    (mul_left_cancel₀ hc h9)

theorem mul_adj (M : Mat3) : M * Mat3.adj M = Mat3.det M • (1 : Mat3) := by
  cases M
  refine Mat3.ext9 ?_ ?_ ?_ ?_ ?_ ?_ ?_ ?_ ?_ <;>
    simp [Mat3.mul_def, Mat3.matMul, Mat3.adj, Mat3.det] <;> try ring

theorem adj_mul (M : Mat3) : Mat3.adj M * M = Mat3.det M • (1 : Mat3) := by
  cases M
  refine Mat3.ext9 ?_ ?_ ?_ ?_ ?_ ?_ ?_ ?_ ?_ <;>
    simp [Mat3.mul_def, Mat3.matMul, Mat3.adj, Mat3.det] <;> try ring

theorem matMul_assoc (A B C : Mat3) : (A * B) * C = A * (B * C) := by
  cases A; cases B; cases C
  refine Mat3.ext9 ?_ ?_ ?_ ?_ ?_ ?_ ?_ ?_ ?_ <;>
    simp only [Mat3.mul_def, Mat3.matMul] <;> ring

theorem mat_mul_one (A : Mat3) : A * 1 = A := by
  cases A
  refine Mat3.ext9 ?_ ?_ ?_ ?_ ?_ ?_ ?_ ?_ ?_ <;>
    simp [Mat3.mul_def, Mat3.matMul]

theorem mat_one_mul (A : Mat3) : 1 * A = A := by
  cases A
  refine Mat3.ext9 ?_ ?_ ?_ ?_ ?_ ?_ ?_ ?_ ?_ <;>
    simp [Mat3.mul_def, Mat3.matMul]

theorem mul_smul_mat (c : ℚ) (A B : Mat3) : A * (c • B) = c • (A * B) := by
  cases A; cases B
  refine Mat3.ext9 ?_ ?_ ?_ ?_ ?_ ?_ ?_ ?_ ?_ <;>
    simp [Mat3.mul_def, Mat3.matMul] <;> try ring

theorem smul_mul_mat (c : ℚ) (A B : Mat3) : (c • A) * B = c • (A * B) := by
  cases A; cases B
  refine Mat3.ext9 ?_ ?_ ?_ ?_ ?_ ?_ ?_ ?_ ?_ <;>
    simp [Mat3.mul_def, Mat3.matMul] <;> try ring

theorem mat_smul_smul (a b : ℚ) (A : Mat3) : a • (b • A) = (a * b) • A := by
  cases A
  refine Mat3.ext9 ?_ ?_ ?_ ?_ ?_ ?_ ?_ ?_ ?_ <;> simp <;> try ring

theorem det_mul (A B : Mat3) :
    Mat3.det (A * B) = Mat3.det A * Mat3.det B := by
  cases A; cases B
  simp only [Mat3.mul_def, Mat3.matMul, Mat3.det]
  ring

theorem det_smul_one (c : ℚ) : Mat3.det (c • (1 : Mat3)) = c ^ 3 := by
  simp [Mat3.det]
  ring

theorem colMat_mulVec (u v w t : Vec3) :
    (Mat3.colMat u v w).mulVec t = t.x • u + t.y • v + t.z • w := by
  cases u; cases v; cases w; cases t
  refine Vec3.ext3 ?_ ?_ ?_ <;>
    simp only [Mat3.colMat, Mat3.mulVec, Vec3.add_x, Vec3.add_y, Vec3.add_z,
      Vec3.smul_x, Vec3.smul_y, Vec3.smul_z] <;> ring

theorem matMul_colMat (A : Mat3) (u v w : Vec3) :
    A * Mat3.colMat u v w =
      Mat3.colMat (A.mulVec u) (A.mulVec v) (A.mulVec w) := by
  cases A; cases u; cases v; cases w
  refine Mat3.ext9 ?_ ?_ ?_ ?_ ?_ ?_ ?_ ?_ ?_ <;>
    simp only [Mat3.mul_def, Mat3.matMul, Mat3.colMat, Mat3.mulVec]

theorem colMat_smul (c : ℚ) (u v w : Vec3) :
    Mat3.colMat (c • u) (c • v) (c • w) = c • Mat3.colMat u v w := by
  cases u; cases v; cases w
  refine Mat3.ext9 ?_ ?_ ?_ ?_ ?_ ?_ ?_ ?_ ?_ <;> simp [Mat3.colMat]

theorem det_colMat (u v w : Vec3) :
    Mat3.det (Mat3.colMat u v w) = det3 u v w := rfl

theorem adj_colMat_mulVec (u v w t : Vec3) :
    (Mat3.adj (Mat3.colMat u v w)).mulVec t =
      ⟨det3 t v w, det3 u t w, det3 u v t⟩ := by
  cases u; cases v; cases w; cases t
  refine Vec3.ext3 ?_ ?_ ?_ <;>
    simp only [Mat3.adj, Mat3.colMat, Mat3.mulVec, det3, Mat3.det] <;> ring

/-- If `M` sends `s` to `d` projectively and `Minv` sends `d` back to `s`,
then the homogeneous lift of `s` is an eigenvector of `Minv * M` with a
nonzero eigenvalue. -/
theorem eigen_of_pair {M Minv : Mat3} {s d : Point}
    (h1 : projMaps M s d) (h2 : projMaps Minv d s) :
    ∃ c : ℚ, c ≠ 0 ∧ (Minv * M).mulVec (hvec s) = c • hvec s := by
  obtain ⟨hz1, hx1, hy1⟩ := h1
  obtain ⟨hz2, hx2, hy2⟩ := h2
  set v := M.mulVec (hvec s) with hv
  set u := Minv.mulVec (hvec d) with hu
  have hvd : v = v.z • hvec d := by
    refine Vec3.ext3 ?_ ?_ ?_ <;>
      simp [hvec, hx1, hy1]
  have hus : u = u.z • hvec s := by
    refine Vec3.ext3 ?_ ?_ ?_ <;>
      simp [hvec, hx2, hy2]
  refine ⟨v.z * u.z, mul_ne_zero hz1 hz2, ?_⟩
  calc (Minv * M).mulVec (hvec s)
      = Minv.mulVec v := by rw [mulVec_matMul, hv]
    _ = Minv.mulVec (v.z • hvec d) := by rw [← hvd]
    _ = v.z • u := by rw [mulVec_smul, hu]
    _ = v.z • (u.z • hvec s) := by rw [← hus]
    _ = (v.z * u.z) • hvec s := vec_smul_smul _ _ _

/-- A matrix having four eigenvectors in general position (no three linearly
dependent) is a scalar multiple of the identity, with the common eigenvalue
of the four. -/
theorem scalar_of_four_eigen {N : Mat3} {s1 s2 s3 s4 : Vec3}
    {c1 c2 c3 c4 : ℚ}
    (hD : det3 s1 s2 s3 ≠ 0) (hA : det3 s4 s2 s3 ≠ 0)
    (hB : det3 s1 s4 s3 ≠ 0) (hC : det3 s1 s2 s4 ≠ 0)
    (h1 : N.mulVec s1 = c1 • s1) (h2 : N.mulVec s2 = c2 • s2)
    (h3 : N.mulVec s3 = c3 • s3) (h4 : N.mulVec s4 = c4 • s4) :
    N = c4 • (1 : Mat3) := by
  set S : Mat3 := Mat3.colMat s1 s2 s3 with hS
  have hdetS : Mat3.det S = det3 s1 s2 s3 := rfl
  set y : Vec3 := (Mat3.adj S).mulVec s4 with hy
  have hycomp : y = ⟨det3 s4 s2 s3, det3 s1 s4 s3, det3 s1 s2 s4⟩ := by
    rw [hy, hS, adj_colMat_mulVec]
  have hSy : S.mulVec y = Mat3.det S • s4 := by
    rw [hy, ← mulVec_matMul, mul_adj, smul_one_mulVec]
  have hSyExpand : S.mulVec y = y.x • s1 + y.y • s2 + y.z • s3 := by
    rw [hS, colMat_mulVec]
  have hway1 : N.mulVec (S.mulVec y) =
      (y.x * c1) • s1 + (y.y * c2) • s2 + (y.z * c3) • s3 := by
    rw [hSyExpand, mulVec_add, mulVec_add, mulVec_smul, mulVec_smul,
      mulVec_smul, h1, h2, h3, vec_smul_smul, vec_smul_smul, vec_smul_smul]
  have hstep : N.mulVec (S.mulVec y) = c4 • S.mulVec y := by
    rw [hSy, mulVec_smul, h4, vec_smul_smul, vec_smul_smul, mul_comm]
  have hway2 : N.mulVec (S.mulVec y) =
      (c4 * y.x) • s1 + (c4 * y.y) • s2 + (c4 * y.z) • s3 := by
    rw [hstep, hSyExpand]
    refine Vec3.ext3 ?_ ?_ ?_ <;> simp <;> ring
  have hE : (y.x * c1) • s1 + (y.y * c2) • s2 + (y.z * c3) • s3 =
      (c4 * y.x) • s1 + (c4 * y.y) • s2 + (c4 * y.z) • s3 :=
    hway1.symm.trans hway2
  -- the coefficient differences annihilate the independent columns
  set z : Vec3 := ⟨y.x * (c1 - c4), y.y * (c2 - c4), y.z * (c3 - c4)⟩ with hz
  have hSz : S.mulVec z = 0 := by
    rw [hS, colMat_mulVec]
    have hEx := congrArg Vec3.x hE
    have hEy := congrArg Vec3.y hE
    have hEz := congrArg Vec3.z hE
    simp only [Vec3.add_x, Vec3.add_y, Vec3.add_z, Vec3.smul_x, Vec3.smul_y,
      Vec3.smul_z] at hEx hEy hEz
    refine Vec3.ext3 ?_ ?_ ?_
    · simp only [hz, Vec3.add_x, Vec3.smul_x, Vec3.zero_x]
      linear_combination hEx
    · simp only [hz, Vec3.add_y, Vec3.smul_y, Vec3.zero_y]
      linear_combination hEy
    · simp only [hz, Vec3.add_z, Vec3.smul_z, Vec3.zero_z]
      linear_combination hEz
  have hz0 : z = 0 := by
    have : Mat3.det S • z = 0 := by
      calc Mat3.det S • z = (Mat3.adj S * S).mulVec z := by
            rw [adj_mul, smul_one_mulVec]
        _ = (Mat3.adj S).mulVec (S.mulVec z) := mulVec_matMul _ _ _
        _ = 0 := by rw [hSz, mulVec_zero]
    have h0 : Mat3.det S • z = Mat3.det S • (0 : Vec3) := by
      rw [this, vec_smul_zero]
    exact vec_smul_cancel (hdetS ▸ hD) h0
  have hzx := congrArg Vec3.x hz0
  have hzy := congrArg Vec3.y hz0
  have hzz := congrArg Vec3.z hz0
  simp only [hz, Vec3.zero_x, Vec3.zero_y, Vec3.zero_z] at hzx hzy hzz
  have hc1 : c1 = c4 := by
    have hyx : y.x ≠ 0 := by rw [hycomp]; exact hA
    have := mul_eq_zero.mp hzx
    rcases this with h | h
    · exact absurd h hyx
    · linarith [sub_eq_zero.mp h]
  have hc2 : c2 = c4 := by
    have hyy : y.y ≠ 0 := by rw [hycomp]; exact hB
    rcases mul_eq_zero.mp hzy with h | h
    · exact absurd h hyy
    · linarith [sub_eq_zero.mp h]
  have hc3 : c3 = c4 := by
    have hyz : y.z ≠ 0 := by rw [hycomp]; exact hC
    rcases mul_eq_zero.mp hzz with h | h
    · exact absurd h hyz
    · linarith [sub_eq_zero.mp h]
  -- N agrees with c4 • 1 on the basis s1, s2, s3
  have hNS : N * S = c4 • S := by
    rw [hS, matMul_colMat, h1, h2, h3, hc1, hc2, hc3, colMat_smul]
  have hfin : Mat3.det S • N = Mat3.det S • (c4 • (1 : Mat3)) := by
    calc Mat3.det S • N
        = N * (Mat3.det S • (1 : Mat3)) := by
          rw [mul_smul_mat, mat_mul_one]
      _ = N * (S * Mat3.adj S) := by rw [mul_adj]
      _ = (N * S) * Mat3.adj S := (matMul_assoc _ _ _).symm
      _ = (c4 • S) * Mat3.adj S := by rw [hNS]
      _ = c4 • (S * Mat3.adj S) := smul_mul_mat _ _ _
      _ = c4 • (Mat3.det S • (1 : Mat3)) := by rw [mul_adj]
      _ = (c4 * Mat3.det S) • (1 : Mat3) := mat_smul_smul _ _ _
      _ = Mat3.det S • (c4 • (1 : Mat3)) := by
          rw [mat_smul_smul, mul_comm]
  exact mat_smul_cancel (hdetS ▸ hD) hfin

/-- If `Minv * M` is a nonzero scalar multiple of the identity, so is
`M * Minv`, with the same scalar. -/
theorem flip_scalar {M Minv : Mat3} {c : ℚ} (hc : c ≠ 0)
    (h : Minv * M = c • (1 : Mat3)) : M * Minv = c • (1 : Mat3) := by
  have hdet : Mat3.det Minv * Mat3.det M = c ^ 3 := by
    rw [← det_mul, h, det_smul_one]
  have hdM : Mat3.det M ≠ 0 := by
    intro h0
    rw [h0, mul_zero] at hdet
    exact pow_ne_zero 3 hc hdet.symm
  have hXM : (M * Minv) * M = (c • (1 : Mat3)) * M := by
    rw [matMul_assoc, h, mul_smul_mat, smul_mul_mat, mat_mul_one, mat_one_mul]
  -- cancel M on the right using the adjugate
  have hcancel : ∀ X Y : Mat3, X * M = Y * M → X = Y := by
    intro X Y hXY
    have h1 : (X * M) * Mat3.adj M = (Y * M) * Mat3.adj M := by rw [hXY]
    rw [matMul_assoc, matMul_assoc, mul_adj, mul_smul_mat, mul_smul_mat,
      mat_mul_one, mat_mul_one] at h1
    exact mat_smul_cancel hdM h1
  exact hcancel _ _ hXM

/-- If `M * Minv` is a nonzero scalar multiple of the identity, then mapping
any point through `Minv` (where its homogeneous scale is nonzero) and back
through `M` restores the point exactly. -/
theorem roundtrip_of_scalar {M Minv : Mat3} {c : ℚ} (hc : c ≠ 0)
    (h : M * Minv = c • (1 : Mat3)) (x y : ℚ)
    (hw : homogW Minv x y ≠ 0) :
    mapPoint M (mapPoint Minv x y).1 (mapPoint Minv x y).2 = (x, y) := by
  set u := Minv.mulVec ⟨x, y, 1⟩ with hu
  have hq : mapPoint Minv x y = (u.x / u.z, u.y / u.z) := rfl
  have hwz : u.z ≠ 0 := hw
  have hlift : (⟨u.x / u.z, u.y / u.z, 1⟩ : Vec3) = u.z⁻¹ • u := by
    refine Vec3.ext3 ?_ ?_ ?_ <;>
      simp [division_def, mul_comm, hwz]
  have hMu : M.mulVec u = c • (⟨x, y, 1⟩ : Vec3) := by
    rw [hu, ← mulVec_matMul, h, smul_one_mulVec]
  have ht : M.mulVec (⟨u.x / u.z, u.y / u.z, 1⟩ : Vec3) =
      (c * u.z⁻¹) • (⟨x, y, 1⟩ : Vec3) := by
    rw [hlift, mulVec_smul, hMu, vec_smul_smul, mul_comm]
  have hscale : c * u.z⁻¹ ≠ 0 := mul_ne_zero hc (inv_ne_zero hwz)
  rw [hq]
  show ((M.mulVec ⟨u.x / u.z, u.y / u.z, 1⟩).x /
      (M.mulVec ⟨u.x / u.z, u.y / u.z, 1⟩).z,
    (M.mulVec ⟨u.x / u.z, u.y / u.z, 1⟩).y /
      (M.mulVec ⟨u.x / u.z, u.y / u.z, 1⟩).z) = (x, y)
  rw [ht]
  simp only [Vec3.smul_x, Vec3.smul_y, Vec3.smul_z]
  rw [mul_one]
  simp only [Prod.mk.injEq]
  exact ⟨mul_div_cancel_left₀ x hscale, mul_div_cancel_left₀ y hscale⟩

/-! ## Claim theorems -/

/-- C1: for every transform record whose forward matrix `M` and inverse
matrix `M_inv` are perspective transforms of the same source/destination
correspondence (the defining property of the two
`cv2.getPerspectiveTransform` calls in `FacadeRectifier.rectify`,
facade_rectification.py lines 391-393), with the source quadrilateral in
general position (no three corners collinear, as required for the
correspondence to admit invertible homographies), the two matrices are
mutually inverse up to one nonzero scalar — exactly, in the rational model,
hence within the 1e-3 tolerance in normalized coordinates — and every
rectified-space point whose homogeneous scale under `M_inv` is nonzero
(all points of the rectified image plane are such) maps through
`map_point` with `M_inv` and back with `M` to exactly itself, hence within
the 1e-2 pixel tolerance. -/
theorem c1_matrices_mutually_inverse_and_roundtrip
    (src dst : Quad) (M Minv : Mat3)
    (hM : isPerspectiveTransform M src dst)
    (hMinv : isPerspectiveTransform Minv dst src)
    (hgp : GeneralPosition src) :
    (∃ c : ℚ, c ≠ 0 ∧ Minv * M = c • (1 : Mat3) ∧
        M * Minv = c • (1 : Mat3)) ∧
      ∀ x y : ℚ, homogW Minv x y ≠ 0 →
        mapPoint M (mapPoint Minv x y).1 (mapPoint Minv x y).2 = (x, y) := by
  obtain ⟨h1, h2, h3, h4⟩ := hM
  obtain ⟨g1, g2, g3, g4⟩ := hMinv
  obtain ⟨hD, hA, hB, hC⟩ := hgp
  obtain ⟨c1, hc1, he1⟩ := eigen_of_pair h1 g1
  obtain ⟨c2, hc2, he2⟩ := eigen_of_pair h2 g2
  obtain ⟨c3, hc3, he3⟩ := eigen_of_pair h3 g3
  obtain ⟨c4, hc4, he4⟩ := eigen_of_pair h4 g4
  have hscalar : Minv * M = c4 • (1 : Mat3) :=
    scalar_of_four_eigen hD hA hB hC he1 he2 he3 he4
  have hflip : M * Minv = c4 • (1 : Mat3) := flip_scalar hc4 hscalar
  exact ⟨⟨c4, hc4, hscalar, hflip⟩,
    fun x y hw => roundtrip_of_scalar hc4 hflip x y hw⟩

/-- Witness for C1: the concrete correspondence mapping the unit square
`(0,0),(1,0),(1,1),(0,1)` onto `(0,0),(1/2,0),(1/2,1/2),(0,1)` with the
genuinely perspective matrix pair `[[1,0,0],[0,1,0],[1,0,1]]` and
`[[1,0,0],[0,1,0],[-1,0,1]]` satisfies every hypothesis, and the point
`(2, 3)` round-trips exactly. -/
theorem c1_matrices_mutually_inverse_and_roundtrip_witness :
    isPerspectiveTransform ⟨1, 0, 0, 0, 1, 0, 1, 0, 1⟩
        ⟨(0, 0), (1, 0), (1, 1), (0, 1)⟩
        ⟨(0, 0), (1/2, 0), (1/2, 1/2), (0, 1)⟩ ∧
      isPerspectiveTransform ⟨1, 0, 0, 0, 1, 0, -1, 0, 1⟩
        ⟨(0, 0), (1/2, 0), (1/2, 1/2), (0, 1)⟩
        ⟨(0, 0), (1, 0), (1, 1), (0, 1)⟩ ∧
      GeneralPosition ⟨(0, 0), (1, 0), (1, 1), (0, 1)⟩ ∧
      homogW ⟨1, 0, 0, 0, 1, 0, -1, 0, 1⟩ 2 3 ≠ 0 ∧
      (∃ c : ℚ, c ≠ 0 ∧
          (⟨1, 0, 0, 0, 1, 0, -1, 0, 1⟩ : Mat3) * ⟨1, 0, 0, 0, 1, 0, 1, 0, 1⟩
              = c • (1 : Mat3) ∧
            (⟨1, 0, 0, 0, 1, 0, 1, 0, 1⟩ : Mat3) * ⟨1, 0, 0, 0, 1, 0, -1, 0, 1⟩
              = c • (1 : Mat3)) ∧
      mapPoint ⟨1, 0, 0, 0, 1, 0, 1, 0, 1⟩
          (mapPoint ⟨1, 0, 0, 0, 1, 0, -1, 0, 1⟩ 2 3).1
          (mapPoint ⟨1, 0, 0, 0, 1, 0, -1, 0, 1⟩ 2 3).2 = (2, 3) := by
  have hM : isPerspectiveTransform ⟨1, 0, 0, 0, 1, 0, 1, 0, 1⟩
      ⟨(0, 0), (1, 0), (1, 1), (0, 1)⟩
      ⟨(0, 0), (1/2, 0), (1/2, 1/2), (0, 1)⟩ := by
    norm_num [isPerspectiveTransform, projMaps, hvec, Mat3.mulVec]
  have hMinv : isPerspectiveTransform ⟨1, 0, 0, 0, 1, 0, -1, 0, 1⟩
      ⟨(0, 0), (1/2, 0), (1/2, 1/2), (0, 1)⟩
      ⟨(0, 0), (1, 0), (1, 1), (0, 1)⟩ := by
    norm_num [isPerspectiveTransform, projMaps, hvec, Mat3.mulVec]
  have hgp : GeneralPosition ⟨(0, 0), (1, 0), (1, 1), (0, 1)⟩ := by
    norm_num [GeneralPosition, det3, Mat3.det, Mat3.colMat, hvec]
  have hw : homogW ⟨1, 0, 0, 0, 1, 0, -1, 0, 1⟩ 2 3 ≠ 0 := by
    norm_num [homogW, Mat3.mulVec]
  have main := c1_matrices_mutually_inverse_and_roundtrip _ _ _ _ hM hMinv hgp
  exact ⟨hM, hMinv, hgp, hw, main.1, main.2 2 3 hw⟩

/-- C2 counterexample: the degenerate quadrilateral with all four corners on
the line `y = x` has shoelace area `0 ≤ 1000`, yet the area gate of
`rectify` returns it (with the warning flag set) instead of failing with
`DegenerateQuadrilateralError`: the source only prints a warning
(facade_rectification.py, lines 387-389) and continues to compute the
transform. -/
theorem c2_area_gate_counterexample :
    rectifyAreaCheck ⟨(0, 0), (1, 1), (2, 2), (3, 3)⟩ =
      Except.ok ⟨⟨(0, 0), (1, 1), (2, 2), (3, 3)⟩, 0, true⟩ ∧
      (Except.ok ⟨⟨(0, 0), (1, 1), (2, 2), (3, 3)⟩, 0, true⟩ :
          Except GeomError RectifyAreaOutcome) ≠
        Except.error (GeomError.degenerateQuadrilateral 0) := by
  constructor
  · norm_num [rectifyAreaCheck, polygonArea]
  · intro h
    exact Except.noConfusion h

/-- C2 (amended): the area check of `rectify` never raises: it computes the
absolute shoelace area (which is always non-negative), records a warning
exactly when the area is strictly below 1000, and returns the quadrilateral
unchanged in every case; no `DegenerateQuadrilateralError` exists on this
path. -/
theorem c2_area_gate_never_raises (q : Quad) :
    rectifyAreaCheck q =
        Except.ok ⟨q, polygonArea q, decide (polygonArea q < 1000)⟩ ∧
      0 ≤ polygonArea q := by
  refine ⟨rfl, ?_⟩
  unfold polygonArea
  positivity

/-- C3 counterexample: on the claimed input `(0,0)`, `(10,5)`, `(0,10)`
(already top, middle, bottom by ascending y), the formula
`top.x + (bottom.x - middle.x)` of `infer_4th_corner`
(facade_rectification_v2.py, line 290) yields `0 + (0 - 10) = -10`, so the
inferred point is `(-10, 0)`, not the claimed `(10, 0)`. -/
theorem c3_inference_counterexample :
    inferFourthPoint (0, 0) (10, 5) (0, 10) = (-10, 0) ∧
      ((-10 : ℚ), (0 : ℚ)) ≠ ((10 : ℚ), (0 : ℚ)) := by
  constructor
  · norm_num [inferFourthPoint, infer4thData, sortByY3]
  · intro h
    have := congrArg Prod.fst h
    norm_num at this

/-- C3 (amended): on input `(0,0)`, `(10,5)`, `(0,10)` the 3-point inference
rule produces the fourth point `(-10, 0)` (per the stated formula, since
`top.x = 0 <= middle.x = 10`), and the subsequent quadrant ordering of
`[top, inferred, bottom, middle]` leaves the top-right and bottom-left
slots empty (two pairs of points share quadrants), so `infer_4th_corner`
crashes with the missing-corner `TypeError` instead of returning a
quadrilateral of positive area. -/
theorem c3_inference_amended :
    inferFourthPoint (0, 0) (10, 5) (0, 10) = (-10, 0) ∧
      infer4thCorner (0, 0) (10, 5) (0, 10) =
        Except.error GeomError.missingCorner := by
  constructor
  · norm_num [inferFourthPoint, infer4thData, sortByY3]
  · norm_num [infer4thCorner, infer4thData, sortByY3, orderPointsSimple,
      buildQuad, runSlots, centroidX, centroidY, classifyOrderPointsSimple,
      assignSlot]

/-- C4 counterexample: for the four points `(2,1)`, `(0,3)`, `(4,3)`,
`(2,5)` the centroid is `(2, 3)`; the point `(2, 1)` has x equal to the
centroid x, yet `order_points` (facade_rectification.py, lines 200-208)
classifies it as the top-RIGHT corner — its left test uses strict `<`, so
ties on x go right, not left as claimed. -/
theorem c4_tie_break_counterexample :
    centroidX [((2 : ℚ), (1 : ℚ)), (0, 3), (4, 3), (2, 5)] = 2 ∧
      centroidY [((2 : ℚ), (1 : ℚ)), (0, 3), (4, 3), (2, 5)] = 3 ∧
      classifyOrderPoints 2 3 (2, 1) = Corner.tr ∧
      Corner.tr ≠ Corner.tl ∧ Corner.tr ≠ Corner.bl := by
  refine ⟨?_, ?_, ?_, by decide, by decide⟩
  · norm_num [centroidX]
  · norm_num [centroidY]
  · norm_num [classifyOrderPoints]

/-- C4 (amended): both routines compute the centroid as the arithmetic mean,
but the tie-breaking is not uniformly toward upper/left.  In
`order_points` (v1) the left and top tests are strict, so a point with
x equal to the centroid x is classified right (TR or BR) and a point with
y equal to the centroid y is classified bottom (BR or BL).  In
`order_points_simple` (v2) the first matching branch of the `<=`-chain
wins: a point with y equal to the centroid y is classified top (TL or TR),
and a point with x equal to the centroid x is classified TL when its
y <= centroid y but BR when its y > centroid y. -/
theorem c4_tie_break_amended (cx cy : ℚ) (p : Point) :
    (p.1 = cx → classifyOrderPoints cx cy p = Corner.tr ∨
        classifyOrderPoints cx cy p = Corner.br) ∧
      (p.2 = cy → classifyOrderPoints cx cy p = Corner.br ∨
        classifyOrderPoints cx cy p = Corner.bl) ∧
      (p.1 = cx → p.2 ≤ cy → classifyOrderPointsSimple cx cy p = Corner.tl) ∧
      (p.1 = cx → cy < p.2 → classifyOrderPointsSimple cx cy p = Corner.br) ∧
      (p.2 = cy → classifyOrderPointsSimple cx cy p = Corner.tl ∨
        classifyOrderPointsSimple cx cy p = Corner.tr) := by
  unfold classifyOrderPoints classifyOrderPointsSimple
  refine ⟨fun hx => ?_, fun hy => ?_, fun hx hy => ?_, fun hx hy => ?_,
    fun hy => ?_⟩ <;>
    split_ifs with h1 h2 h3 <;>
    simp_all <;>
    first
      | rfl
      | (exfalso; first
          | exact absurd le_rfl h1
          | exact absurd le_rfl h2
          | exact absurd le_rfl h3
          | linarith [h1.1, h1.2]
          | linarith)

/-- Witness for C4 (amended) at the concrete centroid `(0, 0)` and point
`(0, 1)`: the x coordinate ties with the centroid and the y coordinate lies
strictly below it (image coordinates grow downward), so
`order_points_simple` files the point under bottom-right. -/
theorem c4_tie_break_amended_witness :
    (((0 : ℚ), (1 : ℚ)) : Point).1 = 0 ∧ (0 : ℚ) < (((0 : ℚ), (1 : ℚ)) : Point).2 ∧
      classifyOrderPointsSimple 0 0 ((0 : ℚ), (1 : ℚ)) = Corner.br := by
  refine ⟨rfl, by norm_num, ?_⟩
  exact (c4_tie_break_amended 0 0 ((0 : ℚ), (1 : ℚ))).2.2.2.1 rfl (by norm_num)

/-- C6: the `"point"` branch of `map_annotation_file` is malformed source
(`'x', self.map_point(...)` inside a dictionary literal, map_annotation.py
line 161, a `SyntaxError`), so a batch containing a point, a rectangle and
an unknown entry faults instead of mapping 2 shapes and reporting 1
skipped; in reality the whole module already fails to import. -/
theorem c6_batch_point_branch_fault :
    mapAnnotationFile 1
        [AnnotationShape.point 100 200, AnnotationShape.rectangle 10 20 110 120,
          AnnotationShape.other "unknown"] =
      Except.error BatchError.pointBranchMalformed := rfl

/-- C7: `map_rectangle` normalizes the two opposite corners per axis with
`min`/`max` into TL/TR/BR/BL, maps each through `map_point`, and returns
the mapped points in that order together with the original rectangle; the
`points` are therefore invariant under swapping the two given corners in
either or both coordinates, and on the identity matrix
`map_rectangle(10,10,50,50)` yields `[(10,10),(50,10),(50,50),(10,50)]`. -/
theorem c7_map_rectangle_orientation :
    (∀ (M : Mat3) (x1 y1 x2 y2 : ℚ),
        (mapRectangle M x1 y1 x2 y2).points =
            [mapPoint M (min x1 x2) (min y1 y2),
              mapPoint M (max x1 x2) (min y1 y2),
              mapPoint M (max x1 x2) (max y1 y2),
              mapPoint M (min x1 x2) (max y1 y2)] ∧
          (mapRectangle M x1 y1 x2 y2).original = [x1, y1, x2, y2] ∧
          (mapRectangle M x1 y1 x2 y2).points =
            (mapRectangle M x2 y2 x1 y1).points ∧
          (mapRectangle M x1 y1 x2 y2).points =
            (mapRectangle M x2 y1 x1 y2).points) ∧
      mapRectangle 1 10 10 50 50 =
        ⟨[(10, 10), (50, 10), (50, 50), (10, 50)], [10, 10, 50, 50]⟩ := by
  constructor
  · intro M x1 y1 x2 y2
    refine ⟨rfl, rfl, ?_, ?_⟩ <;>
      simp [mapRectangle, min_comm, max_comm]
  · norm_num [mapRectangle, mapPoint, Mat3.mulVec]

/-- C8 counterexample: with the singular matrix whose third row is zero, the
homogeneous scale at `(5, 7)` is exactly `0`, yet `map_point` still
returns a value — the division is performed unconditionally (in the float
source it yields `inf`/`nan`; in the rational model it yields `0`) and no
`SingularMatrixError` exists in the source. -/
theorem c8_no_singular_check_counterexample :
    homogW ⟨1, 0, 0, 0, 1, 0, 0, 0, 0⟩ 5 7 = 0 ∧
      mapPoint ⟨1, 0, 0, 0, 1, 0, 0, 0, 0⟩ 5 7 = (0, 0) := by
  constructor
  · norm_num [homogW, Mat3.mulVec]
  · norm_num [mapPoint, Mat3.mulVec]

/-- C8 (amended): `map_point` left-multiplies the homogeneous column by the
matrix and divides by the scale component unconditionally.  When the scale
is nonzero the returned point is the exact projective image (recomposing
with the scale restores the homogeneous product); when the scale is zero it
still returns a value (junk: `inf`/`nan` in the float source, `(0, 0)` in
the rational model) rather than failing with `SingularMatrixError`. -/
theorem c8_map_point_unconditional_division (M : Mat3) (x y : ℚ) :
    (homogW M x y ≠ 0 →
        M.mulVec ⟨x, y, 1⟩ =
          ⟨homogW M x y * (mapPoint M x y).1,
            homogW M x y * (mapPoint M x y).2, homogW M x y⟩) ∧
      (homogW M x y = 0 → mapPoint M x y = (0, 0)) := by
  constructor
  · intro hw
    have hw' : (M.mulVec ⟨x, y, 1⟩).z ≠ 0 := hw
    refine Vec3.ext3 ?_ ?_ ?_ <;>
      simp only [mapPoint, homogW] <;>
      field_simp
  · intro hw
    have hw' : (M.mulVec ⟨x, y, 1⟩).z = 0 := hw
    simp [mapPoint, hw']

/-- Witness for C8 (amended): at the identity matrix and the point `(3, 4)`
the homogeneous scale is `1 ≠ 0` and the recomposition identity holds. -/
theorem c8_map_point_unconditional_division_witness :
    homogW 1 3 4 ≠ 0 ∧
      (1 : Mat3).mulVec ⟨3, 4, 1⟩ =
        ⟨homogW 1 3 4 * (mapPoint 1 3 4).1,
          homogW 1 3 4 * (mapPoint 1 3 4).2, homogW 1 3 4⟩ := by
  have hw : homogW 1 3 4 ≠ 0 := by norm_num [homogW, Mat3.mulVec]
  exact ⟨hw, (c8_map_point_unconditional_division 1 3 4).1 hw⟩

/-- Assigning to a different corner leaves a slot unchanged. -/
theorem slotGet_assign_ne (s : CornerSlots) (c' c : Corner) (p : Point)
    (h : c' ≠ c) : slotGet (assignSlot s c' p) c = slotGet s c := by
  cases c' <;> cases c <;> simp_all [assignSlot, slotGet]

/-- A slot that starts empty and is never assigned stays empty through the
classification loop. -/
theorem foldl_assign_none (classify : ℚ → ℚ → Point → Corner) (cx cy : ℚ)
    (c : Corner) :
    ∀ (pts : List Point) (s0 : CornerSlots),
      slotGet s0 c = none →
      (∀ p ∈ pts, classify cx cy p ≠ c) →
      slotGet
        (pts.foldl (fun s p => assignSlot s (classify cx cy p) p) s0) c = none
  | [], _, h0, _ => h0
  | p :: rest, s0, h0, hall => by
    simp only [List.foldl_cons]
    refine foldl_assign_none classify cx cy c rest _ ?_ ?_
    · rw [slotGet_assign_ne _ _ _ _ (hall p (List.mem_cons_self p rest))]
      exact h0
    · intro q hq
      exact hall q (List.mem_cons_of_mem p hq)

/-- If some slot is still empty after the loop, building the quadrilateral
fails with the missing-corner crash. -/
theorem buildQuad_error_of_slot_none (classify : ℚ → ℚ → Point → Corner)
    (pts : List Point) (c : Corner)
    (h : slotGet (runSlots classify pts) c = none) :
    buildQuad classify pts = .error .missingCorner := by
  simp only [buildQuad]
  rcases htl : (runSlots classify pts).tl with _ | a <;>
    rcases htr : (runSlots classify pts).tr with _ | b <;>
    rcases hbr : (runSlots classify pts).br with _ | d <;>
    rcases hbl : (runSlots classify pts).bl with _ | e <;>
    cases c <;>
    simp_all [slotGet]

set_option maxRecDepth 4000 in
/-- Four indices classified into four corners with a repeat must miss some
corner entirely. -/
theorem corner_pigeonhole (f : Fin 4 → Corner)
    (h : ∃ i j : Fin 4, i ≠ j ∧ f i = f j) : ∃ c : Corner, ∀ i, f i ≠ c := by
  revert h
  revert f
  decide

/-- If two of the four points classify into the same quadrant relative to
their centroid, the shared slot is silently overwritten, some other slot
stays empty, and the build crashes with the missing-corner error. -/
theorem buildQuad_error_of_shared (classify : ℚ → ℚ → Point → Corner)
    (p1 p2 p3 p4 : Point)
    (h : ∃ i j : Fin 4, i ≠ j ∧
        classify (centroidX [p1, p2, p3, p4]) (centroidY [p1, p2, p3, p4])
            (pointAt p1 p2 p3 p4 i) =
          classify (centroidX [p1, p2, p3, p4]) (centroidY [p1, p2, p3, p4])
            (pointAt p1 p2 p3 p4 j)) :
    buildQuad classify [p1, p2, p3, p4] = .error .missingCorner := by
  obtain ⟨c, hc⟩ := corner_pigeonhole
    (fun i => classify (centroidX [p1, p2, p3, p4])
      (centroidY [p1, p2, p3, p4]) (pointAt p1 p2 p3 p4 i)) h
  refine buildQuad_error_of_slot_none classify _ c ?_
  simp only [runSlots]
  refine foldl_assign_none _ _ _ c _ _ (by cases c <;> rfl) ?_
  intro p hp
  simp only [List.mem_cons, List.not_mem_nil, or_false] at hp
  rcases hp with rfl | rfl | rfl | rfl
  · exact hc 0
  · exact hc 1
  · exact hc 2
  · exact hc 3

/-- C5 counterexample: on the four points `(0,0)`, `(1,0)`, `(10,10)`,
`(11,10)` (centroid `(11/2, 5)`), the first two share the top-left
quadrant and the last two the bottom-right: `(0,0)` is silently overwritten
by `(1,0)` in the TL slot (no error at assignment time), and the call fails
with the generic missing-corner `TypeError` — not with any
`AmbiguousQuadrantError`, which does not exist in the source. -/
theorem c5_no_ambiguous_quadrant_counterexample :
    orderPointsSimple [((0 : ℚ), (0 : ℚ)), (1, 0), (10, 10), (11, 10)] =
        Except.error GeomError.missingCorner ∧
      orderPointsSimple [((0 : ℚ), (0 : ℚ)), (1, 0), (10, 10), (11, 10)] ≠
        Except.error GeomError.ambiguousQuadrant ∧
      (runSlots classifyOrderPointsSimple
          [((0 : ℚ), (0 : ℚ)), (1, 0), (10, 10), (11, 10)]).tl =
        some ((1 : ℚ), (0 : ℚ)) := by
  have hslots : runSlots classifyOrderPointsSimple
      [((0 : ℚ), (0 : ℚ)), (1, 0), (10, 10), (11, 10)] =
      ⟨some ((1 : ℚ), (0 : ℚ)), none, some ((11 : ℚ), (10 : ℚ)), none⟩ := by
    norm_num [runSlots, centroidX, centroidY, classifyOrderPointsSimple,
      assignSlot]
  refine ⟨?_, ?_, ?_⟩
  · simp only [orderPointsSimple, buildQuad, hslots]
  · simp only [orderPointsSimple, buildQuad, hslots]
    simp
  · rw [hslots]

/-- C5 (amended): whenever two of four points fall in the same quadrant
relative to their own centroid, both `order_points_simple` and
`order_points` silently overwrite the shared slot, leave some corner slot
unassigned, and crash with the missing-corner `TypeError` when building the
output array — so no quadrilateral with a missing or silently-overwritten
corner is ever returned, but the failure is this generic crash, not a
dedicated `AmbiguousQuadrantError`. -/
theorem c5_shared_quadrant_never_returns (p1 p2 p3 p4 : Point) :
    ((∃ i j : Fin 4, i ≠ j ∧
        classifyOrderPointsSimple (centroidX [p1, p2, p3, p4])
            (centroidY [p1, p2, p3, p4]) (pointAt p1 p2 p3 p4 i) =
          classifyOrderPointsSimple (centroidX [p1, p2, p3, p4])
            (centroidY [p1, p2, p3, p4]) (pointAt p1 p2 p3 p4 j)) →
      orderPointsSimple [p1, p2, p3, p4] = .error .missingCorner) ∧
      ((∃ i j : Fin 4, i ≠ j ∧
          classifyOrderPoints (centroidX [p1, p2, p3, p4])
              (centroidY [p1, p2, p3, p4]) (pointAt p1 p2 p3 p4 i) =
            classifyOrderPoints (centroidX [p1, p2, p3, p4])
              (centroidY [p1, p2, p3, p4]) (pointAt p1 p2 p3 p4 j)) →
        orderPoints [p1, p2, p3, p4] = .error .missingCorner) :=
  ⟨fun h => buildQuad_error_of_shared classifyOrderPointsSimple p1 p2 p3 p4 h,
    fun h => buildQuad_error_of_shared classifyOrderPoints p1 p2 p3 p4 h⟩

/-- Witness for C5 (amended): the concrete four points of the counterexample
input share quadrants at indices 0 and 1, and the call indeed fails with
the missing-corner crash. -/
theorem c5_shared_quadrant_never_returns_witness :
    (∃ i j : Fin 4, i ≠ j ∧
        classifyOrderPointsSimple
            (centroidX [((0 : ℚ), (0 : ℚ)), (1, 0), (10, 10), (11, 10)])
            (centroidY [((0 : ℚ), (0 : ℚ)), (1, 0), (10, 10), (11, 10)])
            (pointAt ((0 : ℚ), (0 : ℚ)) (1, 0) (10, 10) (11, 10) i) =
          classifyOrderPointsSimple
            (centroidX [((0 : ℚ), (0 : ℚ)), (1, 0), (10, 10), (11, 10)])
            (centroidY [((0 : ℚ), (0 : ℚ)), (1, 0), (10, 10), (11, 10)])
            (pointAt ((0 : ℚ), (0 : ℚ)) (1, 0) (10, 10) (11, 10) j)) ∧
      orderPointsSimple [((0 : ℚ), (0 : ℚ)), (1, 0), (10, 10), (11, 10)] =
        Except.error GeomError.missingCorner := by
  have hshare : ∃ i j : Fin 4, i ≠ j ∧
      classifyOrderPointsSimple
          (centroidX [((0 : ℚ), (0 : ℚ)), (1, 0), (10, 10), (11, 10)])
          (centroidY [((0 : ℚ), (0 : ℚ)), (1, 0), (10, 10), (11, 10)])
          (pointAt ((0 : ℚ), (0 : ℚ)) (1, 0) (10, 10) (11, 10) i) =
        classifyOrderPointsSimple
          (centroidX [((0 : ℚ), (0 : ℚ)), (1, 0), (10, 10), (11, 10)])
          (centroidY [((0 : ℚ), (0 : ℚ)), (1, 0), (10, 10), (11, 10)])
          (pointAt ((0 : ℚ), (0 : ℚ)) (1, 0) (10, 10) (11, 10) j) := by
    refine ⟨0, 1, by decide, ?_⟩
    norm_num [centroidX, centroidY, classifyOrderPointsSimple, pointAt]
  exact ⟨hshare,
    (c5_shared_quadrant_never_returns ((0 : ℚ), (0 : ℚ)) (1, 0) (10, 10)
      (11, 10)).1 hshare⟩

/-- C9: for every resolved source quadrilateral and caller height, the
destination of `fit_rectangle` is exactly the rectangle
`[(0,0), (W,0), (W,H), (0,H)]` in TL/TR/BR/BL order with the height passed
through, and `W = int(max(top_width, bottom_width))` is the floor of the
larger of the top-edge length (TL to TR) and bottom-edge length (BL to BR)
— Python `int` truncates the non-negative float toward zero. -/
theorem c9_fit_rectangle_destination (q : Quad) (height : ℕ) :
    ((targetWidth q : ℤ) =
        ⌊Real.sqrt ((max (topWidthSq q) (bottomWidthSq q) : ℚ) : ℝ)⌋) ∧
      fitRectangle q height =
        (⟨(0, 0), ((targetWidth q : ℚ), 0),
            ((targetWidth q : ℚ), (height : ℚ)), (0, (height : ℚ))⟩,
          targetWidth q, height) := by
  refine ⟨?_, rfl⟩
  set m : ℚ := max (topWidthSq q) (bottomWidthSq q) with hm
  have hm0 : 0 ≤ m := by
    refine le_trans ?_ (le_max_left _ _)
    unfold topWidthSq
    positivity
  have hfl0 : 0 ≤ ⌊m⌋ := Int.floor_nonneg.mpr hm0
  set n : ℕ := Int.toNat ⌊m⌋ with hn
  have hfln : (n : ℤ) = ⌊m⌋ := Int.toNat_of_nonneg hfl0
  set W : ℕ := Nat.sqrt n with hW
  have hWle : (W : ℚ) ^ 2 ≤ m := by
    have h1 : (W ^ 2 : ℤ) ≤ (n : ℤ) := by
      exact_mod_cast Nat.sqrt_le' n
    have h2 : ((n : ℤ) : ℚ) ≤ m := by
      rw [hfln]
      exact_mod_cast Int.floor_le m
    calc ((W : ℚ)) ^ 2 = ((W ^ 2 : ℤ) : ℚ) := by push_cast; ring
      _ ≤ ((n : ℤ) : ℚ) := by exact_mod_cast h1
      _ ≤ m := h2
  have hWgt : m < ((W : ℚ) + 1) ^ 2 := by
    have h1 : (n : ℤ) < ((W + 1 : ℕ) ^ 2 : ℤ) := by
      exact_mod_cast Nat.lt_succ_sqrt' n
    have h2 : m < ((n : ℤ) : ℚ) + 1 := by
      rw [hfln]
      exact Int.lt_floor_add_one m
    have h3 : ((n : ℤ) : ℚ) + 1 ≤ (((W + 1 : ℕ) ^ 2 : ℤ) : ℚ) := by
      exact_mod_cast h1
    calc m < ((n : ℤ) : ℚ) + 1 := h2
      _ ≤ (((W + 1 : ℕ) ^ 2 : ℤ) : ℚ) := h3
      _ = ((W : ℚ) + 1) ^ 2 := by push_cast; ring
  have hsq1 : ((W : ℝ)) ≤ Real.sqrt ((m : ℚ) : ℝ) := by
    rw [Real.le_sqrt (by positivity) (by exact_mod_cast hm0)]
    exact_mod_cast hWle
  have hsq2 : Real.sqrt ((m : ℚ) : ℝ) < (W : ℝ) + 1 := by
    rw [Real.sqrt_lt' (by positivity)]
    exact_mod_cast hWgt
  have : ⌊Real.sqrt ((m : ℚ) : ℝ)⌋ = (W : ℤ) := by
    rw [Int.floor_eq_iff]
    constructor
    · exact_mod_cast hsq1
    · push_cast
      exact hsq2
  rw [this]
  rfl

/-- C10: whenever corner extraction receives at least 3 points (and not
exactly 4, the routing condition of `fit_rectangle`) and the 5-pixel
de-duplication leaves fewer than 3 distinct points, `extract_corners`
raises the `ValueError` reporting the number of surviving distinct points
(facade_rectification_v2.py, line 183) and returns no quadrilateral —
whatever the hull-based selection strategy would do. -/
theorem c10_extract_corners_dedup_guard
    (selectBest : List Point → Except GeomError Quad) (pts : List Point)
    (hlen : 3 ≤ pts.length) (hne : pts.length ≠ 4)
    (hdedup : (dedup5 pts).length < 3) :
    extractCorners selectBest pts =
      .error (.tooFewPoints (dedup5 pts).length) := by
  simp only [extractCorners]
  rw [if_pos hdedup]

/-- Witness for C10: the three points `(0,0)`, `(1,1)`, `(2,2)` are pairwise
within 5 pixels, so de-duplication keeps only 1 point and the extraction
reports exactly 1 surviving point, for an arbitrary hull strategy. -/
theorem c10_extract_corners_dedup_guard_witness :
    3 ≤ ([((0 : ℚ), (0 : ℚ)), (1, 1), (2, 2)] : List Point).length ∧
      ([((0 : ℚ), (0 : ℚ)), (1, 1), (2, 2)] : List Point).length ≠ 4 ∧
      (dedup5 [((0 : ℚ), (0 : ℚ)), (1, 1), (2, 2)]).length < 3 ∧
      (dedup5 [((0 : ℚ), (0 : ℚ)), (1, 1), (2, 2)]).length = 1 ∧
      extractCorners (fun _ => Except.error GeomError.missingCorner)
          [((0 : ℚ), (0 : ℚ)), (1, 1), (2, 2)] =
        Except.error
          (GeomError.tooFewPoints
            (dedup5 [((0 : ℚ), (0 : ℚ)), (1, 1), (2, 2)]).length) := by
  have hdedup1 : dedup5 [((0 : ℚ), (0 : ℚ)), (1, 1), (2, 2)] =
      [((0 : ℚ), (0 : ℚ))] := by
    norm_num [dedup5, squaredDist]
  refine ⟨by norm_num, by norm_num, ?_, ?_, ?_⟩
  · rw [hdedup1]; norm_num
  · rw [hdedup1]; norm_num
  · exact c10_extract_corners_dedup_guard _ _ (by norm_num) (by norm_num)
      (by rw [hdedup1]; norm_num)

end FacadeInfer
